import Mathlib

/-!
# voxelToy: environment light (`src/shaders/shared/lights.h`) and camera centring

A shallow embedding of the three shader functions of `lights.h`
(`getBackgroundColor`, `evaluateEnvironmentRadiance`, `sampleEnvironmentRadiance`)
and of the camera pose operation `Camera::centerAt`.

Numbers: GLSL `float` is idealised as an arbitrary linearly ordered field `F`
(the definitions run on `ℚ`, the theorems hold for every such field, `ℝ` included).
Two places where the idealisation would hide behaviour are modelled explicitly.
Division: a GLSL quotient with a zero divisor has no defined value, so `fdiv` returns an
`Option`. Rounding: the order properties of the gradient blend (bounds, monotonicity)
depend on the rounding of each operation, so for them the blend is taken with every
operation rounded (`getBackgroundColorRounded`), and `round32` is the binary32 rounding.

Everything the shader reads but `lights.h` does not define (the uniforms, the
constant `PI`, and the functions of the included headers) is a field of `Env`.
-/

namespace VoxelToy

/-! ## Vectors -/

/-- GLSL `vec2`. -/
structure Vec2 (F : Type) where
  x : F
  y : F
deriving DecidableEq

/-- GLSL `vec3` (also `Imath::V3f` on the host side). -/
structure Vec3 (F : Type) where
  x : F
  y : F
  z : F
deriving DecidableEq

/-- GLSL `vec4`. -/
structure Vec4 (F : Type) where
  x : F
  y : F
  z : F
  w : F
deriving DecidableEq

/-- A `vec4` whose last channel is the result of a division: `vec4(v.xyz, pdf)`.
The channel is `none` when the quotient that fills it has a zero divisor. -/
structure Vec4R (F : Type) where
  xyz : Vec3 F
  w : Option F
deriving DecidableEq

section Ops

variable {F : Type} [LinearOrderedField F]

/-- Swizzle `.rgb` / `.xyz` of a `vec4`. -/
def Vec4.rgb (c : Vec4 F) : Vec3 F := ⟨c.x, c.y, c.z⟩

/-- Product `vec3 * float`, component-wise. -/
def Vec3.scale (v : Vec3 F) (s : F) : Vec3 F := ⟨v.x * s, v.y * s, v.z * s⟩

/-- Sum `vec3 + vec3`. -/
def Vec3.add (a b : Vec3 F) : Vec3 F := ⟨a.x + b.x, a.y + b.y, a.z + b.z⟩

/-- Difference `vec3 - vec3`. -/
def Vec3.sub (a b : Vec3 F) : Vec3 F := ⟨a.x - b.x, a.y - b.y, a.z - b.z⟩

/-- Float division `a / b`: no value when the divisor is zero. -/
def fdiv (a b : F) : Option F := if b = 0 then none else some (a / b)

end Ops

/-! ## The shader environment -/

/-- What `lights.h` reads from outside: the uniforms (`background*`), the constant `PI`
and the functions of `shared/color.h`, `envLight/envMapSample.h` and the other headers.
`B` is the shader's `Basis` type. `backgroundTexture uv` stands for
`texture(backgroundTexture, uv)`. -/
structure Env (F B : Type) where
  backgroundUseImage : Int
  backgroundTexture : Vec2 F → Vec4 F
  backgroundRotationRadians : F
  backgroundIntegral : F
  backgroundColorTop : Vec3 F
  backgroundColorBottom : Vec3 F
  PI : F
  uvCoordFromVector : Vec3 F → F → Vec2 F
  directionFromUVCoord : Vec2 F → F → Vec3 F
  sampleEnvironmentTexture : Vec2 F → Vec2 F
  luminance : Vec3 F → F
  uniformlySampledHemisphere : Vec2 F → Vec4 F
  localToWorld : Vec3 F → B → Vec3 F

section Lights

variable {F B : Type} [LinearOrderedField F]

/-- The function `getBackgroundColor` of `lights.h` (lines 4-17). -/
def getBackgroundColor (env : Env F B) (v : Vec3 F) : Vec3 F :=
  if env.backgroundUseImage ≠ 0 then
    (env.backgroundTexture (env.uvCoordFromVector v env.backgroundRotationRadians)).rgb
  else
    let bias := max 0 v.y
    (env.backgroundColorBottom.scale (1 - bias)).add (env.backgroundColorTop.scale bias)

/-- The function `evaluateEnvironmentRadiance` of `lights.h` (lines 19-33):
returns `vec4(L.rgb, pdf)`. -/
def evaluateEnvironmentRadiance (env : Env F B) (wsWi : Vec3 F) : Vec4R F :=
  if env.backgroundUseImage ≠ 0 then
    let radiance := getBackgroundColor env wsWi
    let pdf := fdiv (env.luminance radiance) env.backgroundIntegral
    ⟨radiance, pdf⟩
  else
    let pdf := fdiv 1 (4 * env.PI)
    ⟨getBackgroundColor env wsWi, pdf⟩

/-- The function `sampleEnvironmentRadiance` of `lights.h` (lines 35-55):
the first component is the returned radiance, the second the `out` parameter
`wsW_pdf = vec4(wsW.xyz, pdf)`. -/
def sampleEnvironmentRadiance (env : Env F B) (surfaceBasis : B)
    (uniformRandomSample : Vec2 F) : Vec3 F × Vec4R F :=
  if env.backgroundUseImage ≠ 0 then
    let uv := env.sampleEnvironmentTexture uniformRandomSample
    let wsW := env.directionFromUVCoord uv env.backgroundRotationRadians
    let radiance := (env.backgroundTexture uv).rgb
    let pdf := fdiv (env.luminance radiance) env.backgroundIntegral
    (radiance, ⟨wsW, pdf⟩)
  else
    let lsW_pdf := env.uniformlySampledHemisphere uniformRandomSample
    let wsW_pdf : Vec4R F := ⟨env.localToWorld lsW_pdf.rgb surfaceBasis, some lsW_pdf.w⟩
    (getBackgroundColor env wsW_pdf.xyz, wsW_pdf)

end Lights

/-! ## The gradient blend in rounded arithmetic

Order properties of the blend of `lights.h` lines 14-15 depend on the rounding of each
`float` operation, which the exact field above does not show. `getBackgroundColorRounded`
is `getBackgroundColor` with every arithmetic operation of the gradient branch followed by
a rounding function `rnd`; `round32` is the rounding of IEEE 754 binary32, the format of a
GLSL `float`. -/

section Rounded

variable {F B : Type} [LinearOrderedField F]

/-- One colour channel of `backgroundColorBottom * (1.0 - bias) + backgroundColorTop * bias`
(`lights.h` line 15), each operation rounded on its own (no fused multiply-add): the
difference `1.0 - bias`, the two products and the sum, in this order. -/
def blendRounded (rnd : F → F) (bottom top bias : F) : F :=
  rnd (rnd (bottom * rnd (1 - bias)) + rnd (top * bias))

/-- The function `getBackgroundColor` of `lights.h` (lines 4-17) with the arithmetic of the
gradient branch rounded by `rnd`. `max(0.0, v.y)` returns one of its arguments and does not
round; the image branch does no arithmetic of its own. -/
def getBackgroundColorRounded (rnd : F → F) (env : Env F B) (v : Vec3 F) : Vec3 F :=
  if env.backgroundUseImage ≠ 0 then
    (env.backgroundTexture (env.uvCoordFromVector v env.backgroundRotationRadians)).rgb
  else
    let bias := max 0 v.y
    ⟨blendRounded rnd env.backgroundColorBottom.x env.backgroundColorTop.x bias,
     blendRounded rnd env.backgroundColorBottom.y env.backgroundColorTop.y bias,
     blendRounded rnd env.backgroundColorBottom.z env.backgroundColorTop.z bias⟩

/-- The rounding `rnd` of the value `x` has relative error at most `u`. -/
def RoundsWithin (rnd : F → F) (u x : F) : Prop := |rnd x - x| ≤ u * |x|

/-- Each of the four roundings of `blendRounded rnd bottom top bias` has relative error at
most `u`. -/
def BlendRoundsWithin (rnd : F → F) (u bottom top bias : F) : Prop :=
  RoundsWithin rnd u (1 - bias)
    ∧ RoundsWithin rnd u (bottom * rnd (1 - bias))
    ∧ RoundsWithin rnd u (top * bias)
    ∧ RoundsWithin rnd u (rnd (bottom * rnd (1 - bias)) + rnd (top * bias))

/-- Each rounding of the three channels of the gradient branch of
`getBackgroundColorRounded rnd env v` has relative error at most `u`. -/
def GradientRoundsWithin (rnd : F → F) (u : F) (env : Env F B) (v : Vec3 F) : Prop :=
  BlendRoundsWithin rnd u env.backgroundColorBottom.x env.backgroundColorTop.x (max 0 v.y)
    ∧ BlendRoundsWithin rnd u env.backgroundColorBottom.y env.backgroundColorTop.y (max 0 v.y)
    ∧ BlendRoundsWithin rnd u env.backgroundColorBottom.z env.backgroundColorTop.z (max 0 v.y)

/-- The rounding error allowed on one channel after the three roundings that each operand
of the blend goes through: `((1 + u)³ − 1) · max(|bottom|, |top|)`. -/
def blendSlack (u bottom top : F) : F := ((1 + u) ^ 3 - 1) * max |bottom| |top|

/-- The channel-wise `blendSlack` of the two gradient colours. -/
def gradientSlack (u : F) (env : Env F B) : Vec3 F :=
  ⟨blendSlack u env.backgroundColorBottom.x env.backgroundColorTop.x,
   blendSlack u env.backgroundColorBottom.y env.backgroundColorTop.y,
   blendSlack u env.backgroundColorBottom.z env.backgroundColorTop.z⟩

end Rounded

/-- The power `2^k` for an integer exponent. -/
def pow2 (k : ℤ) : ℚ :=
  if 0 ≤ k then ((2 ^ k.toNat : ℕ) : ℚ) else 1 / ((2 ^ (-k).toNat : ℕ) : ℚ)

/-- Downward search for a binary exponent: the largest `e' ≤ e` with `2^e' ≤ |x|` among
the first `fuel` candidates, and `e - fuel` when there is none. -/
def exponentFrom (x : ℚ) : ℕ → ℤ → ℤ
  | 0, e => e
  | fuel + 1, e => if pow2 e ≤ |x| then e else exponentFrom x fuel (e - 1)

/-- The binary32 exponent of a nonzero `x` with `|x| < 2^129`: the integer `e` with
`2^e ≤ |x| < 2^(e+1)`, and `-126` (the exponent of the subnormals) when `|x| < 2^-126`. -/
def exponent32 (x : ℚ) : ℤ := exponentFrom x 254 128

/-- Rounding to the nearest integer, ties to the even one. -/
def roundEven (q : ℚ) : ℤ :=
  let f := ⌊q⌋
  if q - f < 1 / 2 then f
  else if 1 / 2 < q - f then f + 1
  else if f % 2 = 0 then f else f + 1

/-- Rounding to IEEE 754 binary32 (the GLSL `float`), round to nearest, ties to even:
24 significant bits, least exponent `-126` (subnormals included). Values beyond the
largest finite binary32 number, where the hardware gives an infinity, are out of range. -/
def round32 (x : ℚ) : ℚ :=
  if x = 0 then 0
  else
    let q := pow2 (exponent32 x - 23)
    (roundEven (x / q) : ℚ) * q

/-! ## Parts that are not in the sources -/

section Modelled

variable {F : Type} [LinearOrderedField F]

/-- Modelled from the spec: `luminance` is defined in `shared/color.h`, which is not among
the sources. Spec §4.2: "luminance(c) = 0.2126·c.r + 0.7152·c.g + 0.0722·c.b (Rec. 709)". -/
def luminanceRec709 (c : Vec3 F) : F :=
  2126 / 10000 * c.x + 7152 / 10000 * c.y + 722 / 10000 * c.z

/-- Dot product of two `vec3`. -/
def Vec3.dot (a b : Vec3 F) : F := a.x * b.x + a.y * b.y + a.z * b.z

/-- Euclidean length, over a square-root function `sqrt`. -/
def Vec3.length (sqrt : F → F) (v : Vec3 F) : F := sqrt (v.dot v)

/-- The unit vector `v / ‖v‖`; undefined for a vector of length zero. -/
def Vec3.normalize (sqrt : F → F) (v : Vec3 F) : Option (Vec3 F) :=
  (fdiv 1 (v.length sqrt)).map fun r => v.scale r

/-- Camera pose of spec §3: eye position `E`, target position `T`, up vector `U`. -/
structure CameraPose (F : Type) where
  eye : Vec3 F
  target : Vec3 F
  up : Vec3 F
deriving DecidableEq

/-- Modelled from the spec: `Camera::centerAt` is only declared in `camera.h` (line 26,
"set target at supplied location, and move eye position proportionally to the current
orientation and distance to camera"); its body is not among the sources. Spec §3:
with `f = normalize(T − E)` and `d = ‖T − E‖`, "centerAt(T') preserves f and d:
E' = T' − d·f". There is no result when the forward vector is undefined (`T = E`). -/
def Camera.centerAt (sqrt : F → F) (cam : CameraPose F) (target : Vec3 F) :
    Option (CameraPose F) :=
  let d := (cam.target.sub cam.eye).length sqrt
  (Vec3.normalize sqrt (cam.target.sub cam.eye)).map fun f =>
    { eye := target.sub (f.scale d), target := target, up := cam.up }

end Modelled

/-! ## Sample data on `ℚ` -/

/-- Sample data: an instance of the shader's `Basis` type, three frame vectors. -/
structure Basis (F : Type) where
  tangent : Vec3 F
  binormal : Vec3 F
  normal : Vec3 F
deriving DecidableEq

/-- Sample data: `localToWorld` for `Basis`, the frame applied to local coordinates. -/
def Basis.localToWorld (v : Vec3 ℚ) (b : Basis ℚ) : Vec3 ℚ :=
  ((b.tangent.scale v.x).add (b.binormal.scale v.y)).add (b.normal.scale v.z)

/-- Sample data: the canonical frame. -/
def Basis.canonical : Basis ℚ := ⟨⟨1, 0, 0⟩, ⟨0, 1, 0⟩, ⟨0, 0, 1⟩⟩

/-- Sample data: a frame whose normal points down the world `y` axis. -/
def Basis.flipped : Basis ℚ := ⟨⟨1, 0, 0⟩, ⟨0, 0, 1⟩, ⟨0, -1, 0⟩⟩

/-- Sample data: a rational stand-in for `directionFromUVCoord`
(`v = 0` maps to `y = +1`, `v = 1` to `y = -1`). -/
def sampleDirectionFromUV (uv : Vec2 ℚ) (theta : ℚ) : Vec3 ℚ :=
  ⟨uv.x - theta, 1 - 2 * uv.y, 0⟩

/-- Sample data: a rational stand-in for `uvCoordFromVector`, left inverse of
`sampleDirectionFromUV`. -/
def sampleUVFromVector (v : Vec3 ℚ) (theta : ℚ) : Vec2 ℚ :=
  ⟨v.x + theta, (1 - v.y) / 2⟩

/-- Sample data: gradient mode with the colours of spec §8 scenario 1. -/
def gradientEnv : Env ℚ (Basis ℚ) where
  backgroundUseImage := 0
  backgroundTexture := fun _ => ⟨0, 0, 0, 1⟩
  backgroundRotationRadians := 0
  backgroundIntegral := 1
  backgroundColorTop := ⟨6 / 10, 7 / 10, 9 / 10⟩
  backgroundColorBottom := ⟨1 / 10, 1 / 10, 1 / 10⟩
  PI := 355 / 113
  uvCoordFromVector := sampleUVFromVector
  directionFromUVCoord := sampleDirectionFromUV
  sampleEnvironmentTexture := fun xi => xi
  luminance := luminanceRec709
  uniformlySampledHemisphere := fun xi => ⟨xi.x, xi.y, 1 - xi.x, 1 / (2 * (355 / 113))⟩
  localToWorld := Basis.localToWorld

/-- Sample data: image mode with the two-row image of spec §8 scenario 3
(upper half white, lower half black); the texture sampler always lands in the upper half. -/
def imageEnv : Env ℚ (Basis ℚ) where
  backgroundUseImage := 1
  backgroundTexture := fun uv => if uv.y < 1 / 2 then ⟨1, 1, 1, 1⟩ else ⟨0, 0, 0, 1⟩
  backgroundRotationRadians := 1 / 4
  backgroundIntegral := 2
  backgroundColorTop := ⟨6 / 10, 7 / 10, 9 / 10⟩
  backgroundColorBottom := ⟨1 / 10, 1 / 10, 1 / 10⟩
  PI := 355 / 113
  uvCoordFromVector := sampleUVFromVector
  directionFromUVCoord := sampleDirectionFromUV
  sampleEnvironmentTexture := fun xi => ⟨xi.x, xi.y / 2⟩
  luminance := luminanceRec709
  uniformlySampledHemisphere := fun xi => ⟨xi.x, xi.y, 1 - xi.x, 1 / (2 * (355 / 113))⟩
  localToWorld := Basis.localToWorld

/-- Sample data: image mode with a fully black image and `backgroundIntegral = 0`
(spec §8 scenario 6). -/
def blackEnv : Env ℚ (Basis ℚ) :=
  { imageEnv with
    backgroundTexture := fun _ => ⟨0, 0, 0, 1⟩
    backgroundIntegral := 0 }

/-- Sample data: gradient mode with the colours of spec §8 scenario 1 as binary32 numbers:
`0.1f = 13421773/2^27`, `0.6f = 5033165/2^23`, `0.7f = 11744051/2^24`,
`0.9f = 7549747/2^23`. -/
def gradientEnv32 : Env ℚ (Basis ℚ) :=
  { gradientEnv with
    backgroundColorTop := ⟨5033165 / 2 ^ 23, 11744051 / 2 ^ 24, 7549747 / 2 ^ 23⟩
    backgroundColorBottom := ⟨13421773 / 2 ^ 27, 13421773 / 2 ^ 27, 13421773 / 2 ^ 27⟩ }

/-- Sample data: gradient mode with both colours the uniform grey `0.1f = 13421773/2^27`. -/
def greyEnv32 : Env ℚ (Basis ℚ) :=
  { gradientEnv with
    backgroundColorTop := ⟨13421773 / 2 ^ 27, 13421773 / 2 ^ 27, 13421773 / 2 ^ 27⟩
    backgroundColorBottom := ⟨13421773 / 2 ^ 27, 13421773 / 2 ^ 27, 13421773 / 2 ^ 27⟩ }

/-- Sample data: a square root on `ℚ` that is exact on the squares of `0, …, 31`. -/
def sqrtSmallSquares (x : ℚ) : ℚ :=
  match (List.range 32).find? (fun n : ℕ => (n : ℚ) * (n : ℚ) = x) with
  | some n => (n : ℚ)
  | none => 0

/-- Sample data: the camera pose of spec §8 scenario 5. -/
def scenarioCamera : CameraPose ℚ := ⟨⟨0, 0, 0⟩, ⟨0, 0, -5⟩, ⟨0, 1, 0⟩⟩

/-! ## Unfolding lemmas -/

section Lemmas

variable {F B : Type} [LinearOrderedField F]

theorem fdiv_of_ne_zero (a : F) {b : F} (hb : b ≠ 0) : fdiv a b = some (a / b) := by
  simp [fdiv, hb]

theorem fdiv_eq_none_iff (a b : F) : fdiv a b = none ↔ b = 0 := by
  unfold fdiv
  split_ifs with h <;> simp [h]

theorem getBackgroundColor_image (env : Env F B) (hmode : env.backgroundUseImage ≠ 0)
    (v : Vec3 F) :
    getBackgroundColor env v =
      (env.backgroundTexture (env.uvCoordFromVector v env.backgroundRotationRadians)).rgb := by
  simp [getBackgroundColor, hmode]

theorem getBackgroundColor_gradient (env : Env F B) (hmode : env.backgroundUseImage = 0)
    (v : Vec3 F) :
    getBackgroundColor env v =
      (env.backgroundColorBottom.scale (1 - max 0 v.y)).add
        (env.backgroundColorTop.scale (max 0 v.y)) := by
  simp [getBackgroundColor, hmode]

theorem evaluateEnvironmentRadiance_image (env : Env F B) (hmode : env.backgroundUseImage ≠ 0)
    (wi : Vec3 F) :
    evaluateEnvironmentRadiance env wi =
      ⟨getBackgroundColor env wi,
        fdiv (env.luminance (getBackgroundColor env wi)) env.backgroundIntegral⟩ := by
  simp [evaluateEnvironmentRadiance, hmode]

theorem evaluateEnvironmentRadiance_gradient (env : Env F B)
    (hmode : env.backgroundUseImage = 0) (wi : Vec3 F) :
    evaluateEnvironmentRadiance env wi = ⟨getBackgroundColor env wi, fdiv 1 (4 * env.PI)⟩ := by
  simp [evaluateEnvironmentRadiance, hmode]

theorem sampleEnvironmentRadiance_image (env : Env F B) (hmode : env.backgroundUseImage ≠ 0)
    (b : B) (xi : Vec2 F) :
    sampleEnvironmentRadiance env b xi =
      ((env.backgroundTexture (env.sampleEnvironmentTexture xi)).rgb,
        ⟨env.directionFromUVCoord (env.sampleEnvironmentTexture xi)
            env.backgroundRotationRadians,
          fdiv (env.luminance (env.backgroundTexture (env.sampleEnvironmentTexture xi)).rgb)
            env.backgroundIntegral⟩) := by
  simp [sampleEnvironmentRadiance, hmode]

theorem sampleEnvironmentRadiance_gradient (env : Env F B)
    (hmode : env.backgroundUseImage = 0) (b : B) (xi : Vec2 F) :
    sampleEnvironmentRadiance env b xi =
      (getBackgroundColor env (env.localToWorld (env.uniformlySampledHemisphere xi).rgb b),
        ⟨env.localToWorld (env.uniformlySampledHemisphere xi).rgb b,
          some (env.uniformlySampledHemisphere xi).w⟩) := by
  simp [sampleEnvironmentRadiance, hmode]

/-- A blend `b·(1 − s) + t·s` with `0 ≤ s ≤ 1` lies between `b` and `t`. -/
theorem blend_between (b t s : F) (hs0 : 0 ≤ s) (hs1 : s ≤ 1) :
    min b t ≤ b * (1 - s) + t * s ∧ b * (1 - s) + t * s ≤ max b t := by
  rcases le_total b t with h | h
  · rw [min_eq_left h, max_eq_right h]
    constructor <;> nlinarith [mul_nonneg hs0 (sub_nonneg.mpr h),
      mul_nonneg (sub_nonneg.mpr hs1) (sub_nonneg.mpr h)]
  · rw [min_eq_right h, max_eq_left h]
    constructor <;> nlinarith [mul_nonneg hs0 (sub_nonneg.mpr h),
      mul_nonneg (sub_nonneg.mpr hs1) (sub_nonneg.mpr h)]

/-- A blend `b·(1 − s) + t·s` with `1 < s` and `b ≠ t` lies outside the interval of `b`, `t`. -/
theorem blend_outside (b t s : F) (hs : 1 < s) (hne : b ≠ t) :
    ¬ (min b t ≤ b * (1 - s) + t * s ∧ b * (1 - s) + t * s ≤ max b t) := by
  rintro ⟨hlo, hhi⟩
  rcases lt_or_gt_of_ne hne with h | h
  · rw [max_eq_right h.le] at hhi
    nlinarith [mul_pos (sub_pos.mpr hs) (sub_pos.mpr h)]
  · rw [min_eq_right h.le] at hlo
    nlinarith [mul_pos (sub_pos.mpr hs) (sub_pos.mpr h)]

end Lemmas

/-! ## Rounding-error lemmas -/

section RoundedLemmas

variable {F B : Type} [LinearOrderedField F]

theorem getBackgroundColorRounded_gradient (rnd : F → F) (env : Env F B)
    (hmode : env.backgroundUseImage = 0) (v : Vec3 F) :
    getBackgroundColorRounded rnd env v =
      ⟨blendRounded rnd env.backgroundColorBottom.x env.backgroundColorTop.x (max 0 v.y),
       blendRounded rnd env.backgroundColorBottom.y env.backgroundColorTop.y (max 0 v.y),
       blendRounded rnd env.backgroundColorBottom.z env.backgroundColorTop.z (max 0 v.y)⟩ := by
  simp [getBackgroundColorRounded, hmode]

/-- Without rounding, `getBackgroundColorRounded` is `getBackgroundColor`. -/
theorem getBackgroundColorRounded_id (env : Env F B) (v : Vec3 F) :
    getBackgroundColorRounded id env v = getBackgroundColor env v := by
  unfold getBackgroundColorRounded getBackgroundColor
  split_ifs
  · rfl
  · simp [blendRounded, Vec3.add, Vec3.scale]

/-- A rounding with relative error at most `u ≤ 1` keeps a non-negative value non-negative. -/
theorem RoundsWithin.nonneg {rnd : F → F} {u x : F} (h : RoundsWithin rnd u x) (hu1 : u ≤ 1)
    (hx : 0 ≤ x) : 0 ≤ rnd x := by
  unfold RoundsWithin at h
  rw [abs_of_nonneg hx] at h
  have hlo := (abs_le.mp h).1
  nlinarith [mul_nonneg (sub_nonneg.mpr hu1) hx]

/-- The rounded blend of two non-negative channels with a bias in `[0, 1]` is non-negative. -/
theorem blendRounded_nonneg (rnd : F → F) (u b t s : F) (hu1 : u ≤ 1) (hs0 : 0 ≤ s)
    (hs1 : s ≤ 1) (hb : 0 ≤ b) (ht : 0 ≤ t) (h : BlendRoundsWithin rnd u b t s) :
    0 ≤ blendRounded rnd b t s := by
  obtain ⟨h1, h2, h3, h4⟩ := h
  have ha : 0 ≤ rnd (1 - s) := h1.nonneg hu1 (sub_nonneg.mpr hs1)
  have hp1 : 0 ≤ rnd (b * rnd (1 - s)) := h2.nonneg hu1 (mul_nonneg hb ha)
  have hp2 : 0 ≤ rnd (t * s) := h3.nonneg hu1 (mul_nonneg ht hs0)
  exact h4.nonneg hu1 (add_nonneg hp1 hp2)

/-- The rounded blend differs from the exact blend by at most `blendSlack`. -/
theorem blendRounded_error (rnd : F → F) (u b t s : F) (hu : 0 ≤ u) (hs0 : 0 ≤ s)
    (hs1 : s ≤ 1) (h : BlendRoundsWithin rnd u b t s) :
    |blendRounded rnd b t s - (b * (1 - s) + t * s)| ≤ blendSlack u b t := by
  obtain ⟨h1, h2, h3, h4⟩ := h
  unfold RoundsWithin at h1 h2 h3 h4
  unfold blendRounded blendSlack
  have hx0 : 0 ≤ 1 - s := sub_nonneg.mpr hs1
  rw [abs_of_nonneg hx0] at h1
  rw [abs_mul] at h2
  rw [abs_mul, abs_of_nonneg hs0] at h3
  have hA : |rnd (1 - s)| ≤ (1 + u) * (1 - s) := by
    have h' := abs_sub_abs_le_abs_sub (rnd (1 - s)) (1 - s)
    rw [abs_of_nonneg hx0] at h'
    linarith
  have hD1 : |rnd (b * rnd (1 - s)) - b * (1 - s)|
      ≤ u * (|b| * |rnd (1 - s)|) + |b| * (u * (1 - s)) := by
    have e : rnd (b * rnd (1 - s)) - b * (1 - s)
        = (rnd (b * rnd (1 - s)) - b * rnd (1 - s)) + b * (rnd (1 - s) - (1 - s)) := by ring
    rw [e]
    refine (abs_add _ _).trans ?_
    rw [abs_mul b]
    exact add_le_add h2 (mul_le_mul_of_nonneg_left h1 (abs_nonneg b))
  have hS : |rnd (b * rnd (1 - s)) + rnd (t * s)|
      ≤ |rnd (b * rnd (1 - s)) - b * (1 - s)| + |b| * (1 - s)
        + (|rnd (t * s) - t * s| + |t| * s) := by
    have e : rnd (b * rnd (1 - s)) + rnd (t * s)
        = ((rnd (b * rnd (1 - s)) - b * (1 - s)) + b * (1 - s))
          + ((rnd (t * s) - t * s) + t * s) := by ring
    rw [e]
    refine (abs_add _ _).trans (add_le_add ((abs_add _ _).trans ?_) ((abs_add _ _).trans ?_))
    · rw [abs_mul b, abs_of_nonneg hx0]
    · rw [abs_mul t, abs_of_nonneg hs0]
  have hT : |rnd (rnd (b * rnd (1 - s)) + rnd (t * s)) - (b * (1 - s) + t * s)|
      ≤ |rnd (rnd (b * rnd (1 - s)) + rnd (t * s)) - (rnd (b * rnd (1 - s)) + rnd (t * s))|
        + |rnd (b * rnd (1 - s)) - b * (1 - s)| + |rnd (t * s) - t * s| := by
    have e : rnd (rnd (b * rnd (1 - s)) + rnd (t * s)) - (b * (1 - s) + t * s)
        = (rnd (rnd (b * rnd (1 - s)) + rnd (t * s)) - (rnd (b * rnd (1 - s)) + rnd (t * s)))
          + (rnd (b * rnd (1 - s)) - b * (1 - s)) + (rnd (t * s) - t * s) := by ring
    rw [e]
    exact abs_add_three _ _ _
  have hb0 : 0 ≤ |b| := abs_nonneg b
  have ht0 : 0 ≤ |t| := abs_nonneg t
  have hbM : |b| ≤ max |b| |t| := le_max_left _ _
  have htM : |t| ≤ max |b| |t| := le_max_right _ _
  generalize |rnd (rnd (b * rnd (1 - s)) + rnd (t * s)) - (b * (1 - s) + t * s)| = E at hT ⊢
  generalize |rnd (rnd (b * rnd (1 - s)) + rnd (t * s)) - (rnd (b * rnd (1 - s)) + rnd (t * s))|
    = R at hT h4
  generalize |rnd (b * rnd (1 - s)) + rnd (t * s)| = S at hS h4
  generalize |rnd (b * rnd (1 - s)) - b * (1 - s)| = D1 at hT hS hD1
  generalize |rnd (t * s) - t * s| = D2 at hT hS h3
  generalize |rnd (1 - s)| = A at hA hD1
  generalize max |b| |t| = M at hbM htM ⊢
  generalize |b| = Bv at hb0 hbM hD1 hS
  generalize |t| = Tv at ht0 htM hS h3
  have hD1' : D1 ≤ Bv * (1 - s) * (u * (1 + u) + u) := by
    have := mul_le_mul_of_nonneg_left hA (mul_nonneg hu hb0)
    linarith
  have hS' : S ≤ Bv * (1 - s) * (1 + u) ^ 2 + Tv * s * (1 + u) := by
    linarith
  have hR' : R ≤ u * (Bv * (1 - s) * (1 + u) ^ 2 + Tv * s * (1 + u)) :=
    h4.trans (mul_le_mul_of_nonneg_left hS' hu)
  have hE : E ≤ Bv * (1 - s) * ((1 + u) ^ 3 - 1) + Tv * s * ((1 + u) ^ 2 - 1) := by
    linarith
  have c2 : 0 ≤ (1 + u) ^ 2 - 1 := by
    have e : (1 + u) ^ 2 - 1 = u * (2 + u) := by ring
    rw [e]
    exact mul_nonneg hu (by linarith)
  have c23 : (1 + u) ^ 2 - 1 ≤ (1 + u) ^ 3 - 1 := by
    have e : (1 + u) ^ 3 - 1 = ((1 + u) ^ 2 - 1) + u * (1 + u) ^ 2 := by ring
    rw [e]
    exact le_add_of_nonneg_right (mul_nonneg hu (sq_nonneg _))
  have hM0 : 0 ≤ M := hb0.trans hbM
  have k1 : Bv * (1 - s) * ((1 + u) ^ 3 - 1) ≤ M * (1 - s) * ((1 + u) ^ 3 - 1) :=
    mul_le_mul_of_nonneg_right (mul_le_mul_of_nonneg_right hbM hx0) (c2.trans c23)
  have k2 : Tv * s * ((1 + u) ^ 2 - 1) ≤ M * s * ((1 + u) ^ 3 - 1) :=
    mul_le_mul (mul_le_mul_of_nonneg_right htM hs0) c23 c2 (mul_nonneg hM0 hs0)
  linarith

/-- The rounded blend with a bias in `[0, 1]` lies between the two channels, up to
`blendSlack`. -/
theorem blendRounded_between (rnd : F → F) (u b t s : F) (hu : 0 ≤ u) (hs0 : 0 ≤ s)
    (hs1 : s ≤ 1) (h : BlendRoundsWithin rnd u b t s) :
    min b t - blendSlack u b t ≤ blendRounded rnd b t s
      ∧ blendRounded rnd b t s ≤ max b t + blendSlack u b t := by
  have herr := abs_le.mp (blendRounded_error rnd u b t s hu hs0 hs1 h)
  have hex := blend_between b t s hs0 hs1
  constructor
  · linarith [herr.1, hex.1]
  · linarith [herr.2, hex.2]

/-- In exact arithmetic the Rec. 709 luminance of the blend is monotone in the bias. -/
theorem luminanceRec709_blend_mono (bottom top : Vec3 F) (s₁ s₂ : F) (h12 : s₁ ≤ s₂)
    (hlum : luminanceRec709 bottom ≤ luminanceRec709 top) :
    luminanceRec709 ⟨bottom.x * (1 - s₁) + top.x * s₁, bottom.y * (1 - s₁) + top.y * s₁,
        bottom.z * (1 - s₁) + top.z * s₁⟩
      ≤ luminanceRec709 ⟨bottom.x * (1 - s₂) + top.x * s₂, bottom.y * (1 - s₂) + top.y * s₂,
        bottom.z * (1 - s₂) + top.z * s₂⟩ := by
  have key := mul_nonneg (sub_nonneg.mpr h12) (sub_nonneg.mpr hlum)
  simp only [luminanceRec709] at key ⊢
  linarith

end RoundedLemmas

/-! ## The binary32 rounding has relative error `2^-24` above the subnormal range -/

section Round32

theorem pow2_eq_zpow (k : ℤ) : pow2 k = (2 : ℚ) ^ k := by
  unfold pow2
  split_ifs with h
  · lift k to ℕ using h
    simp
  · push_neg at h
    obtain ⟨n, hn⟩ : ∃ n : ℕ, k = -(n : ℤ) := ⟨(-k).toNat, by omega⟩
    subst hn
    simp

theorem pow2_pos (k : ℤ) : 0 < pow2 k := by
  rw [pow2_eq_zpow]
  positivity

theorem pow2_sub_23 (k : ℤ) : pow2 (k - 23) = pow2 k / 2 ^ 23 := by
  rw [pow2_eq_zpow, pow2_eq_zpow, zpow_sub₀ (two_ne_zero)]
  norm_num

theorem roundEven_error (q : ℚ) : |(roundEven q : ℚ) - q| ≤ 1 / 2 := by
  have hlo := Int.floor_le q
  have hhi := Int.lt_floor_add_one q
  rw [abs_le]
  simp only [roundEven]
  split_ifs with h1 h2 h3
  · constructor <;> linarith
  · push_cast
    constructor <;> linarith
  · constructor <;> linarith
  · push_cast
    constructor <;> linarith

theorem exponentFrom_le (x : ℚ) (fuel : ℕ) (e : ℤ) (h : pow2 (e - fuel) ≤ |x|) :
    pow2 (exponentFrom x fuel e) ≤ |x| := by
  induction fuel generalizing e with
  | zero => simpa [exponentFrom] using h
  | succ n ih =>
    unfold exponentFrom
    split_ifs with hfound
    · exact hfound
    · apply ih
      have e1 : e - 1 - (n : ℤ) = e - ((n + 1 : ℕ) : ℤ) := by push_cast; ring
      rw [e1]
      exact h

/-- Above the subnormal range the binary32 rounding has relative error at most `2^-24`. -/
theorem round32_roundsWithin (x : ℚ) (hx : 1 / 2 ^ 126 ≤ |x|) :
    RoundsWithin round32 (1 / 2 ^ 24) x := by
  have hx0 : x ≠ 0 := by
    intro h0
    rw [h0, abs_zero] at hx
    exact absurd hx (by norm_num)
  have hE : pow2 (exponent32 x) ≤ |x| := by
    apply exponentFrom_le
    have e1 : pow2 (128 - ((254 : ℕ) : ℤ)) = 1 / 2 ^ 126 := by
      rw [pow2_eq_zpow]
      norm_num
    rw [e1]
    exact hx
  have hq : 0 < pow2 (exponent32 x - 23) := pow2_pos _
  unfold RoundsWithin round32
  rw [if_neg hx0]
  have e2 : (roundEven (x / pow2 (exponent32 x - 23)) : ℚ) * pow2 (exponent32 x - 23) - x
      = ((roundEven (x / pow2 (exponent32 x - 23)) : ℚ) - x / pow2 (exponent32 x - 23))
        * pow2 (exponent32 x - 23) := by
    field_simp
  rw [e2, abs_mul, abs_of_pos hq]
  have h3 := mul_le_mul_of_nonneg_right
    (roundEven_error (x / pow2 (exponent32 x - 23))) hq.le
  rw [pow2_sub_23] at h3 ⊢
  have h4 : 1 / 2 * (pow2 (exponent32 x) / 2 ^ 23) ≤ 1 / 2 ^ 24 * |x| := by
    have : 1 / 2 * (pow2 (exponent32 x) / 2 ^ 23) = 1 / 2 ^ 24 * pow2 (exponent32 x) := by
      ring
    rw [this]
    exact mul_le_mul_of_nonneg_left hE (by norm_num)
  exact h3.trans h4

end Round32

/-! ## The claims -/

section Claims

variable {F B : Type} [LinearOrderedField F]

/-- C5: in gradient mode, for every vector `v`, `getBackgroundColor v` is
`(1 − t)·colorBottom + t·colorTop` with `t = max(0, v.y)`; hence it is exactly
`colorBottom` when `v.y ≤ 0` and exactly `colorTop` when `v.y = 1`. -/
theorem getBackgroundColor_gradient_blend (env : Env F B)
    (hmode : env.backgroundUseImage = 0) (v : Vec3 F) :
    getBackgroundColor env v =
        ⟨(1 - max 0 v.y) * env.backgroundColorBottom.x + max 0 v.y * env.backgroundColorTop.x,
         (1 - max 0 v.y) * env.backgroundColorBottom.y + max 0 v.y * env.backgroundColorTop.y,
         (1 - max 0 v.y) * env.backgroundColorBottom.z + max 0 v.y * env.backgroundColorTop.z⟩
      ∧ (v.y ≤ 0 → getBackgroundColor env v = env.backgroundColorBottom)
      ∧ (v.y = 1 → getBackgroundColor env v = env.backgroundColorTop) := by
  rw [getBackgroundColor_gradient env hmode]
  refine ⟨?_, ?_, ?_⟩
  · simp only [Vec3.add, Vec3.scale, Vec3.mk.injEq]
    refine ⟨?_, ?_, ?_⟩ <;> ring
  · intro hy
    rw [max_eq_left hy]
    simp [Vec3.add, Vec3.scale]
  · intro hy
    rw [hy, max_eq_right (zero_le_one : (0 : F) ≤ 1)]
    simp [Vec3.add, Vec3.scale]

/-- Witness of C5 on the colours of scenarios 1 and 2: `v = (0, 1, 0)` gives `colorTop`,
`v = (0, −0.5, 0.866)` gives `colorBottom`. -/
theorem getBackgroundColor_gradient_blend_witness :
    gradientEnv.backgroundUseImage = 0
      ∧ getBackgroundColor gradientEnv ⟨0, 1, 0⟩ = ⟨6 / 10, 7 / 10, 9 / 10⟩
      ∧ getBackgroundColor gradientEnv ⟨0, -1 / 2, 866 / 1000⟩ = ⟨1 / 10, 1 / 10, 1 / 10⟩ :=
  ⟨rfl, (getBackgroundColor_gradient_blend gradientEnv rfl ⟨0, 1, 0⟩).2.2 rfl,
    (getBackgroundColor_gradient_blend gradientEnv rfl ⟨0, -1 / 2, 866 / 1000⟩).2.1
      (by norm_num)⟩

/-- C4: for every direction `wi`, `evaluateEnvironmentRadiance wi` is `(L, pdf)` with
`L = getBackgroundColor wi` in both modes; in image mode the pdf is the quotient
`luminance(L) / backgroundIntegral` (with the value `luminance(L) / Φ` when `Φ ≠ 0`);
in gradient mode the pdf is `1/(4π)`, whatever `wi` and the gradient colours. -/
theorem evaluateEnvironmentRadiance_spec (env : Env F B) (wi : Vec3 F) :
    (evaluateEnvironmentRadiance env wi).xyz = getBackgroundColor env wi
      ∧ (env.backgroundUseImage ≠ 0 →
          (evaluateEnvironmentRadiance env wi).w =
              fdiv (env.luminance (getBackgroundColor env wi)) env.backgroundIntegral
            ∧ (env.backgroundIntegral ≠ 0 →
                (evaluateEnvironmentRadiance env wi).w =
                  some (env.luminance (getBackgroundColor env wi) / env.backgroundIntegral)))
      ∧ (env.backgroundUseImage = 0 → env.PI ≠ 0 →
          (evaluateEnvironmentRadiance env wi).w = some (1 / (4 * env.PI))) := by
  refine ⟨?_, ?_, ?_⟩
  · by_cases hmode : env.backgroundUseImage = 0
    · rw [evaluateEnvironmentRadiance_gradient env hmode]
    · rw [evaluateEnvironmentRadiance_image env hmode]
  · intro hmode
    rw [evaluateEnvironmentRadiance_image env hmode]
    exact ⟨rfl, fun hphi => fdiv_of_ne_zero _ hphi⟩
  · intro hmode hpi
    rw [evaluateEnvironmentRadiance_gradient env hmode]
    exact fdiv_of_ne_zero 1 (mul_ne_zero four_ne_zero hpi)

/-- Witness of C4: the image environment at the direction `(0, 1, 0)` (white texel,
`Φ = 2`, pdf `1/2`) and the gradient environment at the same direction. -/
theorem evaluateEnvironmentRadiance_spec_witness :
    (imageEnv.backgroundUseImage ≠ 0 ∧ imageEnv.backgroundIntegral ≠ 0
        ∧ (evaluateEnvironmentRadiance imageEnv ⟨0, 1, 0⟩).w =
            some (imageEnv.luminance (getBackgroundColor imageEnv ⟨0, 1, 0⟩)
              / imageEnv.backgroundIntegral))
      ∧ (gradientEnv.backgroundUseImage = 0 ∧ gradientEnv.PI ≠ 0
        ∧ (evaluateEnvironmentRadiance gradientEnv ⟨0, 1, 0⟩).w
            = some (1 / (4 * gradientEnv.PI))) :=
  ⟨⟨by decide, by norm_num [imageEnv],
      ((evaluateEnvironmentRadiance_spec imageEnv ⟨0, 1, 0⟩).2.1 (by decide)).2
        (by norm_num [imageEnv])⟩,
    ⟨rfl, by norm_num [gradientEnv],
      (evaluateEnvironmentRadiance_spec gradientEnv ⟨0, 1, 0⟩).2.2 rfl
        (by norm_num [gradientEnv])⟩⟩

/-- C1: in image mode, for every random sample, if `uvCoordFromVector(·, θ)` inverts
`directionFromUVCoord(·, θ)` at the sampled uv, the pdf channel of `wsW_pdf` written by
`sampleEnvironmentRadiance` equals the pdf channel of `evaluateEnvironmentRadiance` at the
direction `wsW_pdf.xyz`; for `Φ ≠ 0` that common pdf is the value `luminance(texel) / Φ`. -/
theorem sample_pdf_eq_evaluate_pdf_image (env : Env F B)
    (hmode : env.backgroundUseImage ≠ 0) (b : B) (xi : Vec2 F)
    (hinv : env.uvCoordFromVector
        (env.directionFromUVCoord (env.sampleEnvironmentTexture xi)
          env.backgroundRotationRadians) env.backgroundRotationRadians
      = env.sampleEnvironmentTexture xi) :
    (sampleEnvironmentRadiance env b xi).2.w =
        (evaluateEnvironmentRadiance env (sampleEnvironmentRadiance env b xi).2.xyz).w
      ∧ (env.backgroundIntegral ≠ 0 →
          (sampleEnvironmentRadiance env b xi).2.w =
            some (env.luminance (env.backgroundTexture (env.sampleEnvironmentTexture xi)).rgb
              / env.backgroundIntegral)) := by
  rw [sampleEnvironmentRadiance_image env hmode]
  constructor
  · rw [evaluateEnvironmentRadiance_image env hmode, getBackgroundColor_image env hmode]
    dsimp only
    rw [hinv]
  · intro hphi
    exact fdiv_of_ne_zero _ hphi

/-- Witness of C1: the image environment, sample `(1/2, 1/2)`; both pdfs are `1/2`. -/
theorem sample_pdf_eq_evaluate_pdf_image_witness :
    imageEnv.backgroundUseImage ≠ 0
      ∧ (sampleEnvironmentRadiance imageEnv Basis.canonical ⟨1 / 2, 1 / 2⟩).2.w =
          (evaluateEnvironmentRadiance imageEnv
            (sampleEnvironmentRadiance imageEnv Basis.canonical ⟨1 / 2, 1 / 2⟩).2.xyz).w :=
  ⟨by decide,
    (sample_pdf_eq_evaluate_pdf_image imageEnv (by decide) Basis.canonical ⟨1 / 2, 1 / 2⟩
      (by norm_num [imageEnv, sampleUVFromVector, sampleDirectionFromUV])).1⟩

/-- C6: the radiance returned by `sampleEnvironmentRadiance` agrees with the evaluator:
in gradient mode it is `getBackgroundColor(wsW_pdf.xyz)`; in image mode, if
`uvCoordFromVector(·, θ)` inverts `directionFromUVCoord(·, θ)` at the sampled uv, it is the
texel `texture(backgroundTexture, uv).rgb` and equals the rgb part of
`evaluateEnvironmentRadiance(wsW_pdf.xyz)`. -/
theorem sample_radiance_consistent (env : Env F B) (b : B) (xi : Vec2 F) :
    (env.backgroundUseImage = 0 →
        (sampleEnvironmentRadiance env b xi).1 =
          getBackgroundColor env (sampleEnvironmentRadiance env b xi).2.xyz)
      ∧ (env.backgroundUseImage ≠ 0 →
          env.uvCoordFromVector
              (env.directionFromUVCoord (env.sampleEnvironmentTexture xi)
                env.backgroundRotationRadians) env.backgroundRotationRadians
            = env.sampleEnvironmentTexture xi →
          (sampleEnvironmentRadiance env b xi).1 =
              (env.backgroundTexture (env.sampleEnvironmentTexture xi)).rgb
            ∧ (sampleEnvironmentRadiance env b xi).1 =
              (evaluateEnvironmentRadiance env
                (sampleEnvironmentRadiance env b xi).2.xyz).xyz) := by
  constructor
  · intro hmode
    rw [sampleEnvironmentRadiance_gradient env hmode]
  · intro hmode hinv
    rw [sampleEnvironmentRadiance_image env hmode]
    refine ⟨rfl, ?_⟩
    rw [evaluateEnvironmentRadiance_image env hmode, getBackgroundColor_image env hmode]
    dsimp only
    rw [hinv]

/-- Witness of C6: the gradient environment and the image environment at the sample
`(1/2, 1/2)`. -/
theorem sample_radiance_consistent_witness :
    (gradientEnv.backgroundUseImage = 0
        ∧ (sampleEnvironmentRadiance gradientEnv Basis.canonical ⟨1 / 2, 1 / 2⟩).1 =
            getBackgroundColor gradientEnv
              (sampleEnvironmentRadiance gradientEnv Basis.canonical ⟨1 / 2, 1 / 2⟩).2.xyz)
      ∧ (imageEnv.backgroundUseImage ≠ 0
        ∧ (sampleEnvironmentRadiance imageEnv Basis.canonical ⟨1 / 2, 1 / 2⟩).1 =
            (evaluateEnvironmentRadiance imageEnv
              (sampleEnvironmentRadiance imageEnv Basis.canonical ⟨1 / 2, 1 / 2⟩).2.xyz).xyz) :=
  ⟨⟨rfl, (sample_radiance_consistent gradientEnv Basis.canonical ⟨1 / 2, 1 / 2⟩).1 rfl⟩,
    ⟨by decide,
      ((sample_radiance_consistent imageEnv Basis.canonical ⟨1 / 2, 1 / 2⟩).2 (by decide)
        (by norm_num [imageEnv, sampleUVFromVector, sampleDirectionFromUV])).2⟩⟩

/-- C8: in image mode the surface basis is not used: for every random sample and any two
bases, `sampleEnvironmentRadiance` returns the same radiance and the same `wsW_pdf`. -/
theorem sample_image_basis_independent (env : Env F B) (hmode : env.backgroundUseImage ≠ 0)
    (b₁ b₂ : B) (xi : Vec2 F) :
    sampleEnvironmentRadiance env b₁ xi = sampleEnvironmentRadiance env b₂ xi := by
  rw [sampleEnvironmentRadiance_image env hmode, sampleEnvironmentRadiance_image env hmode]

/-- Witness of C8: the image environment with the canonical and the flipped frame. -/
theorem sample_image_basis_independent_witness :
    imageEnv.backgroundUseImage ≠ 0
      ∧ sampleEnvironmentRadiance imageEnv Basis.canonical ⟨1 / 2, 1 / 2⟩ =
          sampleEnvironmentRadiance imageEnv Basis.flipped ⟨1 / 2, 1 / 2⟩ :=
  ⟨by decide,
    sample_image_basis_independent imageEnv (by decide) Basis.canonical Basis.flipped
      ⟨1 / 2, 1 / 2⟩⟩

/-- Counterexample to C3 as stated: with a black image and `backgroundIntegral = 0`, in
image mode, the evaluator at `(0, 1, 0)` and the sampler at `(1/2, 1/2)` divide by zero;
their pdf channel has no value, so it is not `0`. -/
theorem zero_integral_pdf_counterexample :
    blackEnv.backgroundUseImage ≠ 0 ∧ blackEnv.backgroundIntegral = 0
      ∧ (evaluateEnvironmentRadiance blackEnv ⟨0, 1, 0⟩).w = none
      ∧ (evaluateEnvironmentRadiance blackEnv ⟨0, 1, 0⟩).w ≠ some 0
      ∧ (sampleEnvironmentRadiance blackEnv Basis.canonical ⟨1 / 2, 1 / 2⟩).2.w = none
      ∧ (sampleEnvironmentRadiance blackEnv Basis.canonical ⟨1 / 2, 1 / 2⟩).2.w ≠ some 0 := by
  have hmode : blackEnv.backgroundUseImage ≠ 0 := by decide
  have hphi : blackEnv.backgroundIntegral = 0 := rfl
  have he : (evaluateEnvironmentRadiance blackEnv ⟨0, 1, 0⟩).w = none := by
    rw [evaluateEnvironmentRadiance_image blackEnv hmode]
    dsimp only
    exact (fdiv_eq_none_iff _ _).mpr hphi
  have hs : (sampleEnvironmentRadiance blackEnv Basis.canonical ⟨1 / 2, 1 / 2⟩).2.w = none := by
    rw [sampleEnvironmentRadiance_image blackEnv hmode]
    dsimp only
    exact (fdiv_eq_none_iff _ _).mpr hphi
  refine ⟨hmode, hphi, he, ?_, hs, ?_⟩
  · rw [he]; exact fun h => Option.noConfusion h
  · rw [hs]; exact fun h => Option.noConfusion h

/-- C3 (amended): in image mode the division by `Φ = backgroundIntegral` is not guarded.
For every direction and every sample, the pdf channel of the evaluator and of the sampler
has no value exactly when `Φ = 0` (a division by zero), and has the value
`luminance(radiance) / Φ` otherwise; the sampler's radiance is the texel at the sampled
uv, hence `(0,0,0)` wherever the texture is black. -/
theorem image_pdf_undefined_iff_zero_integral (env : Env F B)
    (hmode : env.backgroundUseImage ≠ 0) (wi : Vec3 F) (b : B) (xi : Vec2 F) :
    ((evaluateEnvironmentRadiance env wi).w = none ↔ env.backgroundIntegral = 0)
      ∧ ((sampleEnvironmentRadiance env b xi).2.w = none ↔ env.backgroundIntegral = 0)
      ∧ (env.backgroundIntegral ≠ 0 →
          (evaluateEnvironmentRadiance env wi).w =
              some (env.luminance (getBackgroundColor env wi) / env.backgroundIntegral)
            ∧ (sampleEnvironmentRadiance env b xi).2.w =
              some (env.luminance (env.backgroundTexture (env.sampleEnvironmentTexture xi)).rgb
                / env.backgroundIntegral))
      ∧ (sampleEnvironmentRadiance env b xi).1 =
          (env.backgroundTexture (env.sampleEnvironmentTexture xi)).rgb
      ∧ ((env.backgroundTexture (env.sampleEnvironmentTexture xi)).rgb = ⟨0, 0, 0⟩ →
          (sampleEnvironmentRadiance env b xi).1 = ⟨0, 0, 0⟩) := by
  rw [evaluateEnvironmentRadiance_image env hmode, sampleEnvironmentRadiance_image env hmode]
  exact ⟨fdiv_eq_none_iff _ _, fdiv_eq_none_iff _ _,
    fun hphi => ⟨fdiv_of_ne_zero _ hphi, fdiv_of_ne_zero _ hphi⟩, rfl, fun h => h⟩

/-- Witness of amended C3: the black environment (`Φ = 0`), where the sampler's radiance
is `(0,0,0)` and its pdf channel has no value. -/
theorem image_pdf_undefined_iff_zero_integral_witness :
    blackEnv.backgroundUseImage ≠ 0
      ∧ (sampleEnvironmentRadiance blackEnv Basis.canonical ⟨1 / 2, 1 / 2⟩).1 = ⟨0, 0, 0⟩
      ∧ ((sampleEnvironmentRadiance blackEnv Basis.canonical ⟨1 / 2, 1 / 2⟩).2.w = none
          ↔ blackEnv.backgroundIntegral = 0) :=
  ⟨by decide,
    (image_pdf_undefined_iff_zero_integral blackEnv (by decide) ⟨0, 1, 0⟩ Basis.canonical
      ⟨1 / 2, 1 / 2⟩).2.2.2.2 rfl,
    (image_pdf_undefined_iff_zero_integral blackEnv (by decide) ⟨0, 1, 0⟩ Basis.canonical
      ⟨1 / 2, 1 / 2⟩).2.1⟩

/-- Counterexample to C7 as stated, on the binary32 arithmetic of the shader. With both
colours the grey `0.1f` (equal luminances), `v₁.y = 0.2f` and `v₂.y = 0.25`, every channel
of `getBackgroundColor v₁` is `0.1f` plus one unit in the last place and every channel of
`getBackgroundColor v₂` is `0.1f`, so the luminance decreases from `v₁` to `v₂`. With the
colours of scenario 1 (luminance of the top strictly larger) it decreases between the
adjacent binary32 numbers `v₁.y = 8388616/2^28` and `v₂.y = 8388617/2^28`. All inputs are
binary32 numbers. -/
theorem luminance_gradient_monotone_counterexample :
    (greyEnv32.backgroundUseImage = 0
      ∧ luminanceRec709 greyEnv32.backgroundColorBottom
          ≤ luminanceRec709 greyEnv32.backgroundColorTop
      ∧ round32 (13421773 / 2 ^ 27) = 13421773 / 2 ^ 27
      ∧ round32 (13421773 / 2 ^ 26) = 13421773 / 2 ^ 26
      ∧ (0 : ℚ) ≤ 13421773 / 2 ^ 26 ∧ (13421773 / 2 ^ 26 : ℚ) ≤ 1 / 4 ∧ (1 / 4 : ℚ) ≤ 1
      ∧ getBackgroundColorRounded round32 greyEnv32 ⟨0, 13421773 / 2 ^ 26, 0⟩
          = ⟨13421774 / 2 ^ 27, 13421774 / 2 ^ 27, 13421774 / 2 ^ 27⟩
      ∧ getBackgroundColorRounded round32 greyEnv32 ⟨0, 1 / 4, 0⟩
          = ⟨13421773 / 2 ^ 27, 13421773 / 2 ^ 27, 13421773 / 2 ^ 27⟩
      ∧ luminanceRec709 (getBackgroundColorRounded round32 greyEnv32 ⟨0, 1 / 4, 0⟩)
          < luminanceRec709
              (getBackgroundColorRounded round32 greyEnv32 ⟨0, 13421773 / 2 ^ 26, 0⟩))
    ∧ (gradientEnv32.backgroundUseImage = 0
      ∧ luminanceRec709 gradientEnv32.backgroundColorBottom
          < luminanceRec709 gradientEnv32.backgroundColorTop
      ∧ round32 (8388616 / 2 ^ 28) = 8388616 / 2 ^ 28
      ∧ round32 (8388617 / 2 ^ 28) = 8388617 / 2 ^ 28
      ∧ (0 : ℚ) ≤ 8388616 / 2 ^ 28 ∧ (8388616 / 2 ^ 28 : ℚ) ≤ 8388617 / 2 ^ 28
      ∧ (8388617 / 2 ^ 28 : ℚ) ≤ 1
      ∧ luminanceRec709
            (getBackgroundColorRounded round32 gradientEnv32 ⟨0, 8388617 / 2 ^ 28, 0⟩)
          < luminanceRec709
              (getBackgroundColorRounded round32 gradientEnv32 ⟨0, 8388616 / 2 ^ 28, 0⟩)) := by
  decide!

/-- C7 (amended): in gradient mode, with the Rec. 709 luminance (the formula of the claim,
evaluated exactly on the colours returned), if
`luminance(colorTop) ≥ luminance(colorBottom)` then for all `v₁`, `v₂` with
`0 ≤ v₁.y ≤ v₂.y ≤ 1`, the luminance of `getBackgroundColor` is monotone up to the
rounding of the blend: when each rounding has relative error at most `u`,
`luminance(getBackgroundColor v₁) ≤ luminance(getBackgroundColor v₂) + 2·luminance(slack)`,
where the channels of `slack` are `((1 + u)³ − 1)·max(|colorBottom|, |colorTop|)`. Without
rounding (`u = 0`) this is the monotonicity of the claim. -/
theorem luminance_gradient_monotone_up_to_rounding (rnd : F → F) (u : F) (env : Env F B)
    (hmode : env.backgroundUseImage = 0) (hu : 0 ≤ u)
    (hlum : luminanceRec709 env.backgroundColorBottom ≤ luminanceRec709 env.backgroundColorTop)
    (v₁ v₂ : Vec3 F) (h0 : 0 ≤ v₁.y) (h12 : v₁.y ≤ v₂.y) (h1 : v₂.y ≤ 1)
    (hr₁ : GradientRoundsWithin rnd u env v₁) (hr₂ : GradientRoundsWithin rnd u env v₂) :
    luminanceRec709 (getBackgroundColorRounded rnd env v₁)
      ≤ luminanceRec709 (getBackgroundColorRounded rnd env v₂)
        + 2 * luminanceRec709 (gradientSlack u env) := by
  have h02 : 0 ≤ v₂.y := h0.trans h12
  have h11 : v₁.y ≤ 1 := h12.trans h1
  unfold GradientRoundsWithin at hr₁ hr₂
  rw [max_eq_right h0] at hr₁
  rw [max_eq_right h02] at hr₂
  rw [getBackgroundColorRounded_gradient rnd env hmode,
    getBackgroundColorRounded_gradient rnd env hmode, max_eq_right h0, max_eq_right h02]
  have e1x := abs_le.mp (blendRounded_error rnd u _ _ _ hu h0 h11 hr₁.1)
  have e1y := abs_le.mp (blendRounded_error rnd u _ _ _ hu h0 h11 hr₁.2.1)
  have e1z := abs_le.mp (blendRounded_error rnd u _ _ _ hu h0 h11 hr₁.2.2)
  have e2x := abs_le.mp (blendRounded_error rnd u _ _ _ hu h02 h1 hr₂.1)
  have e2y := abs_le.mp (blendRounded_error rnd u _ _ _ hu h02 h1 hr₂.2.1)
  have e2z := abs_le.mp (blendRounded_error rnd u _ _ _ hu h02 h1 hr₂.2.2)
  have hex := luminanceRec709_blend_mono env.backgroundColorBottom env.backgroundColorTop
    v₁.y v₂.y h12 hlum
  simp only [luminanceRec709, gradientSlack] at hex ⊢
  linarith [e1x.1, e1x.2, e1y.1, e1y.2, e1z.1, e1z.2, e2x.1, e2x.2, e2y.1, e2y.2, e2z.1, e2z.2]

/-- Witness of amended C7 on binary32: the colours of scenario 1, `u = 2^-24` and the
adjacent numbers `v₁.y = 8388616/2^28`, `v₂.y = 8388617/2^28`, where the luminance
decreases but by less than the slack. -/
theorem luminance_gradient_monotone_up_to_rounding_witness :
    gradientEnv32.backgroundUseImage = 0
      ∧ GradientRoundsWithin round32 (1 / 2 ^ 24) gradientEnv32 ⟨0, 8388616 / 2 ^ 28, 0⟩
      ∧ GradientRoundsWithin round32 (1 / 2 ^ 24) gradientEnv32 ⟨0, 8388617 / 2 ^ 28, 0⟩
      ∧ luminanceRec709
            (getBackgroundColorRounded round32 gradientEnv32 ⟨0, 8388616 / 2 ^ 28, 0⟩)
          ≤ luminanceRec709
              (getBackgroundColorRounded round32 gradientEnv32 ⟨0, 8388617 / 2 ^ 28, 0⟩)
            + 2 * luminanceRec709 (gradientSlack (1 / 2 ^ 24) gradientEnv32) :=
  ⟨rfl,
    by unfold GradientRoundsWithin BlendRoundsWithin RoundsWithin; decide!,
    by unfold GradientRoundsWithin BlendRoundsWithin RoundsWithin; decide!,
    luminance_gradient_monotone_up_to_rounding round32 (1 / 2 ^ 24) gradientEnv32 rfl
      (by norm_num) (by decide!) ⟨0, 8388616 / 2 ^ 28, 0⟩ ⟨0, 8388617 / 2 ^ 28, 0⟩
      (by norm_num) (by norm_num) (by norm_num)
      (by unfold GradientRoundsWithin BlendRoundsWithin RoundsWithin; decide!)
      (by unfold GradientRoundsWithin BlendRoundsWithin RoundsWithin; decide!)⟩

/-- Counterexample to C10 as stated, on the binary32 arithmetic of the shader: with both
colours the grey `0.1f = 13421773/2^27` and `v.y = 0.2f = 13421773/2^26 ≤ 1`, the red
channel of `getBackgroundColor v` is `13421774/2^27`, one unit in the last place above
both colours. All inputs are binary32 numbers. -/
theorem getBackgroundColor_gradient_bounds_counterexample :
    greyEnv32.backgroundUseImage = 0
      ∧ round32 (13421773 / 2 ^ 27) = 13421773 / 2 ^ 27
      ∧ round32 (13421773 / 2 ^ 26) = 13421773 / 2 ^ 26
      ∧ (13421773 / 2 ^ 26 : ℚ) ≤ 1
      ∧ (getBackgroundColorRounded round32 greyEnv32 ⟨0, 13421773 / 2 ^ 26, 0⟩).x
          = 13421774 / 2 ^ 27
      ∧ ¬ ((getBackgroundColorRounded round32 greyEnv32 ⟨0, 13421773 / 2 ^ 26, 0⟩).x
          ≤ max greyEnv32.backgroundColorBottom.x greyEnv32.backgroundColorTop.x) := by
  decide!

/-- C10 (amended): in gradient mode, for every `v` with `v.y ≤ 1`, when each rounding of
the blend has relative error at most `u ≤ 1`, each channel of `getBackgroundColor v` lies
between the corresponding channels of `colorBottom` and `colorTop` up to the slack
`((1 + u)³ − 1)·max(|colorBottom|, |colorTop|)`, and the radiance is channel-wise
non-negative whenever both gradient colours are; for `v.y > 1` the bound can fail, slack
included (scenario-1 colours in binary32, `v.y = 2`). -/
theorem getBackgroundColor_gradient_bounds_up_to_rounding (rnd : F → F) (u : F)
    (env : Env F B) (hmode : env.backgroundUseImage = 0) (hu0 : 0 ≤ u) (hu1 : u ≤ 1)
    (v : Vec3 F) (hy : v.y ≤ 1) (hr : GradientRoundsWithin rnd u env v) :
    ((min env.backgroundColorBottom.x env.backgroundColorTop.x - (gradientSlack u env).x
            ≤ (getBackgroundColorRounded rnd env v).x
          ∧ (getBackgroundColorRounded rnd env v).x
            ≤ max env.backgroundColorBottom.x env.backgroundColorTop.x
              + (gradientSlack u env).x)
        ∧ (min env.backgroundColorBottom.y env.backgroundColorTop.y - (gradientSlack u env).y
            ≤ (getBackgroundColorRounded rnd env v).y
          ∧ (getBackgroundColorRounded rnd env v).y
            ≤ max env.backgroundColorBottom.y env.backgroundColorTop.y
              + (gradientSlack u env).y)
        ∧ (min env.backgroundColorBottom.z env.backgroundColorTop.z - (gradientSlack u env).z
            ≤ (getBackgroundColorRounded rnd env v).z
          ∧ (getBackgroundColorRounded rnd env v).z
            ≤ max env.backgroundColorBottom.z env.backgroundColorTop.z
              + (gradientSlack u env).z))
      ∧ (0 ≤ env.backgroundColorBottom.x → 0 ≤ env.backgroundColorBottom.y →
          0 ≤ env.backgroundColorBottom.z → 0 ≤ env.backgroundColorTop.x →
          0 ≤ env.backgroundColorTop.y → 0 ≤ env.backgroundColorTop.z →
          0 ≤ (getBackgroundColorRounded rnd env v).x
            ∧ 0 ≤ (getBackgroundColorRounded rnd env v).y
            ∧ 0 ≤ (getBackgroundColorRounded rnd env v).z)
      ∧ (∃ w : Vec3 ℚ, 1 < w.y
          ∧ max gradientEnv32.backgroundColorBottom.x gradientEnv32.backgroundColorTop.x
              + (gradientSlack (1 / 2 ^ 24) gradientEnv32).x
            < (getBackgroundColorRounded round32 gradientEnv32 w).x) := by
  have hs0 : (0 : F) ≤ max 0 v.y := le_max_left _ _
  have hs1 : max 0 v.y ≤ 1 := max_le zero_le_one hy
  rw [getBackgroundColorRounded_gradient rnd env hmode]
  refine ⟨⟨?_, ?_, ?_⟩, ?_, ⟨⟨0, 2, 0⟩, by norm_num, by decide!⟩⟩
  · exact blendRounded_between rnd u _ _ _ hu0 hs0 hs1 hr.1
  · exact blendRounded_between rnd u _ _ _ hu0 hs0 hs1 hr.2.1
  · exact blendRounded_between rnd u _ _ _ hu0 hs0 hs1 hr.2.2
  · intro bx by_ bz tx ty tz
    exact ⟨blendRounded_nonneg rnd u _ _ _ hu1 hs0 hs1 bx tx hr.1,
      blendRounded_nonneg rnd u _ _ _ hu1 hs0 hs1 by_ ty hr.2.1,
      blendRounded_nonneg rnd u _ _ _ hu1 hs0 hs1 bz tz hr.2.2⟩

/-- Witness of amended C10 on binary32: the grey environment, `u = 2^-24`, `v.y = 0.2f`;
the red channel `13421774/2^27` is above both colours but within the slack, and
non-negative. -/
theorem getBackgroundColor_gradient_bounds_up_to_rounding_witness :
    greyEnv32.backgroundUseImage = 0
      ∧ GradientRoundsWithin round32 (1 / 2 ^ 24) greyEnv32 ⟨0, 13421773 / 2 ^ 26, 0⟩
      ∧ (getBackgroundColorRounded round32 greyEnv32 ⟨0, 13421773 / 2 ^ 26, 0⟩).x
          ≤ max greyEnv32.backgroundColorBottom.x greyEnv32.backgroundColorTop.x
            + (gradientSlack (1 / 2 ^ 24) greyEnv32).x
      ∧ 0 ≤ (getBackgroundColorRounded round32 greyEnv32 ⟨0, 13421773 / 2 ^ 26, 0⟩).x :=
  ⟨rfl,
    by unfold GradientRoundsWithin BlendRoundsWithin RoundsWithin; decide!,
    ((getBackgroundColor_gradient_bounds_up_to_rounding round32 (1 / 2 ^ 24) greyEnv32 rfl
      (by norm_num) (by norm_num) ⟨0, 13421773 / 2 ^ 26, 0⟩ (by norm_num)
      (by unfold GradientRoundsWithin BlendRoundsWithin RoundsWithin; decide!)).1.1).2,
    ((getBackgroundColor_gradient_bounds_up_to_rounding round32 (1 / 2 ^ 24) greyEnv32 rfl
      (by norm_num) (by norm_num) ⟨0, 13421773 / 2 ^ 26, 0⟩ (by norm_num)
      (by unfold GradientRoundsWithin BlendRoundsWithin RoundsWithin; decide!)).2.1
      (by decide!) (by decide!) (by decide!) (by decide!) (by decide!) (by decide!)).1⟩

end Claims

/-! ## Camera centring -/

section Camera

variable {F : Type} [LinearOrderedField F]

theorem Vec3.dot_self_pos_of_ne (a b : Vec3 F) (h : a ≠ b) :
    0 < (a.sub b).dot (a.sub b) := by
  have hne : a.x - b.x ≠ 0 ∨ a.y - b.y ≠ 0 ∨ a.z - b.z ≠ 0 := by
    by_contra hcon
    push_neg at hcon
    obtain ⟨hx, hy, hz⟩ := hcon
    apply h
    cases a
    cases b
    simp only [Vec3.mk.injEq]
    exact ⟨sub_eq_zero.mp hx, sub_eq_zero.mp hy, sub_eq_zero.mp hz⟩
  simp only [Vec3.dot, Vec3.sub]
  rcases hne with hx | hy | hz
  · nlinarith [mul_self_pos.mpr hx, mul_self_nonneg (a.y - b.y), mul_self_nonneg (a.z - b.z)]
  · nlinarith [mul_self_pos.mpr hy, mul_self_nonneg (a.x - b.x), mul_self_nonneg (a.z - b.z)]
  · nlinarith [mul_self_pos.mpr hz, mul_self_nonneg (a.x - b.x), mul_self_nonneg (a.y - b.y)]

theorem Vec3.scale_inv_scale (v : Vec3 F) {l : F} (hl : l ≠ 0) :
    (v.scale (1 / l)).scale l = v := by
  cases v
  simp only [Vec3.scale, Vec3.mk.injEq]
  refine ⟨?_, ?_, ?_⟩ <;> field_simp

theorem Vec3.sub_sub_self (t v : Vec3 F) : t.sub (t.sub v) = v := by
  cases t
  cases v
  simp [Vec3.sub]

/-- C9: for every camera pose `(E, T)` with `T ≠ E` and every new target `T'`,
`centerAt(T')` sets the target to `T'` and the eye to `E' = T' − d·f`, where
`f = normalize(T − E)` and `d = ‖T − E‖`; the forward direction and the distance to the
target of the new pose are again `f` and `d`. The square root is assumed exact at `‖T − E‖²`. -/
theorem centerAt_preserves_forward_and_distance (sqrt : F → F) (cam : CameraPose F)
    (newTarget : Vec3 F) (hne : cam.target ≠ cam.eye)
    (hsq : sqrt ((cam.target.sub cam.eye).dot (cam.target.sub cam.eye))
        * sqrt ((cam.target.sub cam.eye).dot (cam.target.sub cam.eye))
      = (cam.target.sub cam.eye).dot (cam.target.sub cam.eye)) :
    ∃ f cam2, Vec3.normalize sqrt (cam.target.sub cam.eye) = some f
      ∧ Camera.centerAt sqrt cam newTarget = some cam2
      ∧ cam2.target = newTarget
      ∧ cam2.eye = newTarget.sub (f.scale ((cam.target.sub cam.eye).length sqrt))
      ∧ Vec3.normalize sqrt (cam2.target.sub cam2.eye) = some f
      ∧ (cam2.target.sub cam2.eye).length sqrt = (cam.target.sub cam.eye).length sqrt := by
  have hpos := Vec3.dot_self_pos_of_ne cam.target cam.eye hne
  have hlen : (cam.target.sub cam.eye).length sqrt ≠ 0 := by
    intro h0
    unfold Vec3.length at h0
    rw [h0, mul_zero] at hsq
    exact hpos.ne hsq
  have hnorm : Vec3.normalize sqrt (cam.target.sub cam.eye) =
      some ((cam.target.sub cam.eye).scale (1 / (cam.target.sub cam.eye).length sqrt)) := by
    unfold Vec3.normalize
    rw [fdiv_of_ne_zero 1 hlen]
    rfl
  have hback : newTarget.sub
      (newTarget.sub (((cam.target.sub cam.eye).scale
        (1 / (cam.target.sub cam.eye).length sqrt)).scale
          ((cam.target.sub cam.eye).length sqrt))) = cam.target.sub cam.eye := by
    rw [Vec3.sub_sub_self, Vec3.scale_inv_scale _ hlen]
  refine ⟨_, ⟨newTarget.sub (((cam.target.sub cam.eye).scale
      (1 / (cam.target.sub cam.eye).length sqrt)).scale
        ((cam.target.sub cam.eye).length sqrt)), newTarget, cam.up⟩, hnorm, ?_, rfl, rfl, ?_, ?_⟩
  · unfold Camera.centerAt
    rw [hnorm]
    rfl
  · show Vec3.normalize sqrt (newTarget.sub _) = _
    rw [hback, hnorm]
  · show (newTarget.sub _).length sqrt = _
    rw [hback]

/-- Witness of C9 on scenario 5: `E = (0,0,0)`, `T = (0,0,−5)`, `T' = (10,0,0)` gives
`E' = (10,0,5)` and target `(10,0,0)`. -/
theorem centerAt_preserves_forward_and_distance_witness :
    scenarioCamera.target ≠ scenarioCamera.eye
      ∧ Camera.centerAt sqrtSmallSquares scenarioCamera ⟨10, 0, 0⟩
          = some ⟨⟨10, 0, 5⟩, ⟨10, 0, 0⟩, ⟨0, 1, 0⟩⟩
      ∧ ∃ f cam2,
          Vec3.normalize sqrtSmallSquares (scenarioCamera.target.sub scenarioCamera.eye)
              = some f
            ∧ Camera.centerAt sqrtSmallSquares scenarioCamera ⟨10, 0, 0⟩ = some cam2
            ∧ cam2.target = ⟨10, 0, 0⟩
            ∧ cam2.eye = (⟨10, 0, 0⟩ : Vec3 ℚ).sub
                (f.scale ((scenarioCamera.target.sub scenarioCamera.eye).length
                  sqrtSmallSquares))
            ∧ Vec3.normalize sqrtSmallSquares (cam2.target.sub cam2.eye) = some f
            ∧ (cam2.target.sub cam2.eye).length sqrtSmallSquares
                = (scenarioCamera.target.sub scenarioCamera.eye).length sqrtSmallSquares :=
  ⟨by decide,
    by
      norm_num [Camera.centerAt, Vec3.normalize, Vec3.length, Vec3.dot, Vec3.sub, Vec3.scale,
        fdiv, scenarioCamera, sqrtSmallSquares, List.range, List.range.loop, List.find?],
    centerAt_preserves_forward_and_distance sqrtSmallSquares scenarioCamera ⟨10, 0, 0⟩
      (by decide)
      (by
        norm_num [Vec3.dot, Vec3.sub, scenarioCamera, sqrtSmallSquares, List.range,
          List.range.loop, List.find?])⟩

end Camera

end VoxelToy
